import Mathlib

/-!
# Verification of the uffd snapshot/restore micro-benchmark harness

A shallow embedding of the harness code appended to `djpeg.c` (the
memory-map filter `load_maps`, the region remapper `remap` with its raw
syscall wrappers, the userfaultfd monitor thread `uffd_monitor_thread`,
the restore engine `restore_pages`, the teardown helper `uffd_deregister`
and the iteration driver `run`), together with theorems settling the
specification's claims about it.

Modelling conventions:
* Machine addresses are `Nat`; pointer arithmetic that the C code performs
  on 64-bit integers is modelled with explicit masks over `2 ^ 64`.
* A page's full 4096-byte content is modelled as one abstract value
  (`Nat`): every operation of the harness that touches page content
  (the monitor's `memcpy` capture and `restore_pages`'s `memcpy` replay)
  moves whole pages, and a write by the target changes the content of the
  page containing the written byte to some new value.  Byte-for-byte
  equality of a page's content is equality of this value.
* Memory is a function from page-aligned addresses to page contents.
* The fixed-capacity C arrays (`maps[0x100]`, `pages[0x1000]`) are
  modelled as lists; staying within the C capacity appears as an explicit
  hypothesis where a claim depends on it (overflow is undefined behaviour
  in the C code).
-/

def PAGE_SIZE : Nat := 4096

/-- `address & ~(PAGE_SIZE - 1)` on a 64-bit `uintptr_t`
(djpeg.c line 1375): the containing page's base address. -/
def page_align (a : Nat) : Nat := a &&& (2 ^ 64 - 2 ^ 12)

/-- `page_t` (djpeg.c lines 1197-1200): a dirty-page record, a page-aligned
address plus the captured content of that page. -/
structure page_t where
  addr : Nat
  data : Nat
deriving DecidableEq, Repr

/-- The state of the monitored address space as the harness manipulates it:
page contents, the per-page write-protect trap state, and the dirty-page
log `pages` (whose length is the C variable `n_pages`). -/
structure HarnessState where
  mem : Nat → Nat
  wp : Nat → Bool
  pages : List page_t

/-- Pointwise update of a memory function. -/
def updf (f : Nat → Nat) (k v : Nat) : Nat → Nat :=
  fun x => if x = k then v else f x

/-- Pointwise update of a protection function. -/
def updb (f : Nat → Bool) (k : Nat) (v : Bool) : Nat → Bool :=
  fun x => if x = k then v else f x

/-- The addresses recorded in a dirty-page log. -/
def addrs (l : List page_t) : List Nat := l.map page_t.addr

/-- One write of the target to byte address `a`, setting the containing
page's content to `v`, composed with the monitor thread's handling of the
write-protect fault it raises (djpeg.c lines 1373-1389).  If the page is
trapped, the kernel suspends the write and the monitor first copies the
page's current (pre-write) content into a fresh record appended to the
log (`pages[n_pages] = ...; n_pages++`), then releases the trap for
exactly that page (`UFFDIO_WRITEPROTECT` with `mode = 0`), after which the
write lands.  If the page is not trapped the write lands directly and the
monitor never runs. -/
def doWrite (s : HarnessState) (a v : Nat) : HarnessState :=
  if s.wp (page_align a) then
    { mem := updf s.mem (page_align a) v
      wp := updb s.wp (page_align a) false
      pages := s.pages ++ [⟨page_align a, s.mem (page_align a)⟩] }
  else
    { s with mem := updf s.mem (page_align a) v }

/-- The write pattern one target invocation performs: a sequence of
(byte address, new page content) writes. -/
def runWrites (s : HarnessState) (ws : List (Nat × Nat)) : HarnessState :=
  ws.foldl (fun t w => doWrite t w.1 w.2) s

/-- `restore_pages` (djpeg.c lines 1461-1475): for each record of the log
in order, `memcpy` the saved page content back to its address.  The
function does not touch `n_pages` (the log keeps its records) and issues
no `UFFDIO_WRITEPROTECT` (released traps stay released). -/
def restore_pages (s : HarnessState) : HarnessState :=
  { s with mem := s.pages.foldl (fun m r => updf m r.addr r.data) s.mem }

/-- One iteration of the driver loop in `run` (djpeg.c lines 1505-1517):
invoke the target (performing its writes under the monitor) and then
restore. -/
def iteration (s : HarnessState) (ws : List (Nat × Nat)) : HarnessState :=
  restore_pages (runWrites s ws)

/-- A whole run: the iterations in order, each with its own write
pattern. -/
def runIters (s : HarnessState) (wss : List (List (Nat × Nat))) : HarnessState :=
  wss.foldl iteration s

/-- `procmaps_struct` as used by the harness: the fields of a parsed
`/proc/self/maps` line that the code reads (`addr_start`, `addr_end`,
`is_r`, `is_w`, `is_x`, `length`, `pathname`). -/
structure procmaps_struct where
  addr_start : Nat
  addr_end : Nat
  is_r : Bool
  is_w : Bool
  is_x : Bool
  length : Nat
  pathname : String
deriving DecidableEq, Repr

/-- The write-protect state established by the monitor thread's initial
registration pass (djpeg.c lines 1318-1329): a page is trapped exactly
when it lies inside one of the monitored regions. -/
def protInit (maps : List procmaps_struct) (p : Nat) : Bool :=
  maps.any fun m => decide (m.addr_start ≤ p) && decide (p < m.addr_end)

/-- The state of the address space right before the first iteration:
initial contents `M0`, every monitored page trapped, empty log. -/
def initState (maps : List procmaps_struct) (M0 : Nat → Nat) : HarnessState :=
  ⟨M0, protInit maps, []⟩

/-- `UFFD_PAGEFAULT_FLAG_WP` from the Linux uapi userfaultfd header
(`1 << 1`). -/
def UFFD_PAGEFAULT_FLAG_WP : Nat := 2

/-- What one pass of the monitor thread's `for (;;)` body observes
(djpeg.c lines 1335-1390), with the kernel/libc outcomes made explicit:
the result of `poll`, the `revents` bits, the result of `read`, and for a
fully read `uffd_msg` its pagefault `flags` and `address` together with
whether the subsequent `UFFDIO_WRITEPROTECT` release ioctl succeeds. -/
inductive MonEvent where
  | pollFail
  | pollTimeout
  | pollErrBit
  | pollNoIn
  | readAgain
  | readFail
  | readShort (n : Nat)
  | message (flags : Nat) (address : Nat) (wpOk : Bool)
deriving DecidableEq, Repr

/-- What one pass of the monitor thread's loop body does besides updating
the dirty-page log: loop back to `poll`, call `_exit(code)`, release the
write-protect trap for the range `[pageAddr, pageAddr + len)` (the ioctl
with `mode = 0`) and loop, or fall through with no action at all. -/
inductive MonAction where
  | retry
  | fatal (code : Nat)
  | capture (pageAddr : Nat) (len : Nat)
  | ignore
deriving DecidableEq, Repr

/-- One pass of the monitor thread's loop body (djpeg.c lines 1335-1390):
given the current page contents `mem` and dirty-page log `pages` and the
observed event, produce the new log and the action taken.
* `poll` returning `-1` or `0` → `continue`;
* `POLLERR` set in `revents` → `_exit(2)`;
* `revents` without `POLLIN` → `continue`;
* `read` failing with `EAGAIN` → `continue`; failing otherwise →
  `_exit(3)`;
* a short read (`readret != sizeof(msg)`) → `_exit(4)`;
* a full message whose pagefault flags contain `UFFD_PAGEFAULT_FLAG_WP`:
  append the record `{addr := address & ~(PAGE_SIZE-1), data := current
  content of that page}` to the log, then release the trap for exactly
  that one page (`_exit(5)` if the release ioctl fails);
* a full message without the write-protect flag: nothing happens. -/
def uffd_monitor_step (mem : Nat → Nat) (pages : List page_t) :
    MonEvent → List page_t × MonAction
  | .pollFail => (pages, .retry)
  | .pollTimeout => (pages, .retry)
  | .pollErrBit => (pages, .fatal 2)
  | .pollNoIn => (pages, .retry)
  | .readAgain => (pages, .retry)
  | .readFail => (pages, .fatal 3)
  | .readShort _ => (pages, .fatal 4)
  | .message flags address wpOk =>
      if flags &&& UFFD_PAGEFAULT_FLAG_WP ≠ 0 then
        let p := page_align address
        if wpOk then (pages ++ [⟨p, mem p⟩], .capture p PAGE_SIZE)
        else (pages ++ [⟨p, mem p⟩], .fatal 5)
      else (pages, .ignore)

/-- `uffd_deregister` (djpeg.c lines 1441-1459), abstracted over the
success of the per-region `UFFDIO_UNREGISTER` ioctl: walk the monitored
regions in order, return `1` at the first failing ioctl, return `0` after
the last region otherwise. -/
def uffd_deregister : List Bool → Nat
  | [] => 0
  | ok :: rest => if ok then uffd_deregister rest else 1

/-- The externally visible steps of `run` (djpeg.c lines 1477-1523) in
program order.  Every call `run` makes appears as a constructor;
`uffd_deregisterEv` is the (never emitted) step of calling
`uffd_deregister`, so that its absence from a run's trace is a statable
fact. -/
inductive RunEvent where
  | load_mapsEv
  | remapEv
  | uffd_setupEv
  | spawnMonitorEv
  | waitReadyEv
  | redirect_stdoutEv
  | setaffinityEv (cpu : Nat)
  | clockStart (i : Nat)
  | stackSwap (i : Nat) (second : Bool)
  | invokeTarget (i : Nat)
  | restoreEv (i : Nat)
  | clockEnd (i : Nat)
  | storeTime (i : Nat)
  | dup2Ev
  | report_timesEv
  | uffd_deregisterEv
deriving DecidableEq, Repr

/-- The body of iteration `i` of the driver loop (djpeg.c lines
1505-1517) in program order: `clock_gettime(&start)`, `swap_old_stack()`,
`target_main(...)`, `swap_old_stack()`, `restore_pages()`,
`clock_gettime(&end)`, `times[i] = timespecDiff(&end, &start)`. -/
def iterTrace (i : Nat) : List RunEvent :=
  [.clockStart i, .stackSwap i false, .invokeTarget i, .stackSwap i true,
   .restoreEv i, .clockEnd i, .storeTime i]

/-- The full trace of `run` with `ITERS = iters` (djpeg.c lines
1477-1523): setup calls, the iteration loop, then
`dup2(stdout_fd, STDOUT_FILENO)` and `report_times()`. -/
def runTrace (iters : Nat) : List RunEvent :=
  [.load_mapsEv, .remapEv, .uffd_setupEv, .spawnMonitorEv, .waitReadyEv,
   .redirect_stdoutEv, .setaffinityEv 3]
  ++ (List.range iters).flatMap iterTrace
  ++ [.dup2Ev, .report_timesEv]

/-- Recognizer for the `times[i] = ...` store, used to state the length
of the timing sequence a run produces. -/
def isStoreTime : RunEvent → Bool
  | .storeTime _ => true
  | _ => false

/-! ## The region remapper (djpeg.c lines 1177-1243)

`remap` is modelled as the trace of primitive operations it performs:
raw syscalls through the `my_syscallN` wrappers and byte-by-byte copy
loops.  Numeric constants are the x86-64 Linux values of the constants
the C code uses. -/

def NR_mmap : Nat := 9
def NR_mprotect : Nat := 10
def NR_munmap : Nat := 11

def PROT_READ : Nat := 1
def PROT_WRITE : Nat := 2
def PROT_EXEC : Nat := 4
def MAP_PRIVATE : Nat := 2
def MAP_FIXED : Nat := 16
def MAP_ANONYMOUS : Nat := 32

/-- A primitive operation performed by the remap path: a raw syscall
(number plus arguments, issued by a `my_syscallN` inline-asm wrapper), or
one of the byte-by-byte copy loops (`for (j...) dst[j] = src[j]`). -/
inductive RemapEvent where
  | sys (nr : Nat) (args : List Int)
  | byteCopy (dst src len : Nat)
deriving DecidableEq, Repr

/-- `remap_mmap` (djpeg.c lines 1177-1180): `my_syscall6(__NR_mmap,
addr, length, prot, flags, fd, offset)`. -/
def remap_mmap (addr len prot flags : Nat) (fd : Int) (off : Nat) : RemapEvent :=
  .sys NR_mmap [(addr : Int), (len : Int), (prot : Int), (flags : Int), fd, (off : Int)]

/-- `remap_mprotect` (djpeg.c lines 1182-1185): `my_syscall3(__NR_mprotect,
addr, length, prot)`. -/
def remap_mprotect (addr len prot : Nat) : RemapEvent :=
  .sys NR_mprotect [(addr : Int), (len : Int), (prot : Int)]

/-- `remap_munmap` (djpeg.c lines 1187-1190).  Faithful to the source: the
body is `my_syscall2(__NR_mprotect, addr, length)` — the mprotect syscall
number with only two arguments, not `__NR_munmap`. -/
def remap_munmap (addr len : Nat) : RemapEvent :=
  .sys NR_mprotect [(addr : Int), (len : Int)]

/-- The loop body of `remap` (djpeg.c lines 1213-1240) for one monitored
region, in program order: map the scratch region at `0xdead0000`, copy the
region out byte by byte, "unmap" the original (via `remap_munmap`),
recreate an anonymous private read-write mapping in its place, copy back
byte by byte, "unmap" the scratch (via `remap_munmap`), and re-apply the
region's original permission bits. -/
def remap_one (m : procmaps_struct) : List RemapEvent :=
  let prot := (if m.is_r then PROT_READ else 0) |||
              (if m.is_w then PROT_WRITE else 0) |||
              (if m.is_x then PROT_EXEC else 0)
  [ remap_mmap 0xdead0000 m.length (PROT_READ ||| PROT_WRITE)
      (MAP_PRIVATE ||| MAP_ANONYMOUS ||| MAP_FIXED) (-1) 0,
    .byteCopy 0xdead0000 m.addr_start m.length,
    remap_munmap m.addr_start m.length,
    remap_mmap m.addr_start (m.addr_end - m.addr_start) (PROT_READ ||| PROT_WRITE)
      (MAP_PRIVATE ||| MAP_ANONYMOUS ||| MAP_FIXED) (-1) 0,
    .byteCopy m.addr_start 0xdead0000 m.length,
    remap_munmap 0xdead0000 m.length,
    remap_mprotect m.addr_start (m.addr_end - m.addr_start) prot ]

/-- `remap` (djpeg.c lines 1211-1243): the remap loop over all monitored
regions, as the concatenation of the per-region operation traces. -/
def remap (ms : List procmaps_struct) : List RemapEvent :=
  ms.flatMap remap_one

/-- The syscall number of a remap-path event, `none` for a copy loop. -/
def sysNr : RemapEvent → Option Nat
  | .sys nr _ => some nr
  | .byteCopy _ _ _ => none

/-- The filter applied by the loop body of `load_maps` (djpeg.c lines
1265-1304), one `continue` test per conjunct, in source order: skip the
harness's own `.remap` and `.writeignored` segments (matched by start
address), skip regions with none of read/write/execute, skip the
`[vsyscall]`, `[vvar]` and `[vdso]` pseudo-regions (matched by pathname),
and skip the `.got.plt` region (matched by start address); keep
everything else.  The three reserved addresses come from the linker
script and are parameters here. -/
def keep_map (REMAP_ADDR WRITE_IGNORED_ADDR GOT_PLT_ADDR : Nat)
    (m : procmaps_struct) : Bool :=
  !(m.addr_start == REMAP_ADDR || m.addr_start == WRITE_IGNORED_ADDR) &&
  (m.is_r || m.is_w || m.is_x) &&
  !(m.pathname == "[vsyscall]" || m.pathname == "[vvar]" ||
    m.pathname == "[vdso]") &&
  !(m.addr_start == GOT_PLT_ADDR)

/-- `load_maps` (djpeg.c lines 1254-1309): walk the parsed memory map in
order and append to `maps[]` exactly the regions that pass every
`continue` test. -/
def load_maps (REMAP_ADDR WRITE_IGNORED_ADDR GOT_PLT_ADDR : Nat)
    (input : List procmaps_struct) : List procmaps_struct :=
  input.filter (keep_map REMAP_ADDR WRITE_IGNORED_ADDR GOT_PLT_ADDR)

/-! ## The harness invariant

`GoodMid` holds at every point while the target is executing; `Good`
additionally records that at an iteration boundary every monitored page
holds its original content.  `wp0` is the initial trap state (a page is
monitored iff `wp0` is `true` on it) and `M0` the initial contents. -/

/-- Mid-iteration invariant of the monitor and its log:
* never-monitored pages are never trapped;
* a monitored page is trapped exactly while it has no record in the log;
* a monitored page without a record still holds its original content;
* every record belongs to a monitored page and stores that page's
  original (pre-first-write) content;
* no page has two records. -/
structure GoodMid (wp0 : Nat → Bool) (M0 : Nat → Nat) (s : HarnessState) : Prop where
  wpFalse : ∀ p, wp0 p = false → s.wp p = false
  wpIff : ∀ p, wp0 p = true → (s.wp p = true ↔ p ∉ addrs s.pages)
  memPristine : ∀ p, wp0 p = true → p ∉ addrs s.pages → s.mem p = M0 p
  recOrig : ∀ r ∈ s.pages, wp0 r.addr = true ∧ r.data = M0 r.addr
  nodupAddrs : (addrs s.pages).Nodup

/-- Iteration-boundary invariant: `GoodMid`, and every monitored page
holds its original content. -/
def Good (wp0 : Nat → Bool) (M0 : Nat → Nat) (s : HarnessState) : Prop :=
  GoodMid wp0 M0 s ∧ ∀ p, wp0 p = true → s.mem p = M0 p

/-! ## Concrete inputs used by the witness theorems -/

/-- All-zero initial page contents. -/
def memZero : Nat → Nat := fun _ => 0

/-- Every page initially write-protected. -/
def wpAll : Nat → Bool := fun _ => true

/-- A sample monitored region: one page at `[0x1000, 0x2000)`,
permissions `rw-`. -/
def mapEx : procmaps_struct :=
  { addr_start := 4096, addr_end := 8192, is_r := true, is_w := true,
    is_x := false, length := 4096, pathname := "" }

/-- A sample excluded region: a permissionless hole. -/
def mapExNone : procmaps_struct :=
  { addr_start := 12288, addr_end := 16384, is_r := false, is_w := false,
    is_x := false, length := 4096, pathname := "" }

/-! ## Arithmetic facts about `page_align` -/

/-- For addresses that fit in 64 bits, the C mask
`a & ~(PAGE_SIZE - 1)` rounds down to the nearest multiple of the page
size. -/
theorem page_align_eq_div (a : Nat) (h : a < 2 ^ 64) :
    page_align a = 2 ^ 12 * (a / 2 ^ 12) := by
  have hmask : (2 ^ 64 - 2 ^ 12 : Nat) = (2 ^ 52 - 1) <<< 12 := by
    simp [Nat.shiftLeft_eq]
  have hrhs : 2 ^ 12 * (a / 2 ^ 12) = (a >>> 12) <<< 12 := by
    simp [Nat.shiftLeft_eq, Nat.shiftRight_eq_div_pow, Nat.mul_comm]
  rw [page_align, hmask, hrhs]
  apply Nat.eq_of_testBit_eq
  intro i
  rw [Nat.testBit_and, Nat.testBit_shiftLeft, Nat.testBit_shiftLeft,
      Nat.testBit_shiftRight, Nat.testBit_two_pow_sub_one]
  by_cases h12 : 12 ≤ i
  · have heq : 12 + (i - 12) = i := by omega
    rw [heq]
    by_cases h64 : i < 64
    · simp [h12, show i - 12 < 52 by omega]
    · have hbit : a.testBit i = false :=
        Nat.testBit_lt_two_pow
          (lt_of_lt_of_le h (Nat.pow_le_pow_right (by norm_num) (by omega)))
      simp [hbit]
  · simp [h12]

/-- Masking never moves an address up. -/
theorem page_align_le (a : Nat) (h : a < 2 ^ 64) : page_align a ≤ a := by
  rw [page_align_eq_div a h, Nat.mul_comm]
  exact Nat.div_mul_le_self a (2 ^ 12)

/-- A page-aligned lower bound survives masking. -/
theorem le_page_align (s a : Nat) (hs : s % 4096 = 0) (hsa : s ≤ a) (h : a < 2 ^ 64) :
    s ≤ page_align a := by
  rw [page_align_eq_div a h]
  have hdvd : 2 ^ 12 ∣ s := Nat.dvd_of_mod_eq_zero (by norm_num at hs ⊢; omega)
  calc s = 2 ^ 12 * (s / 2 ^ 12) := (Nat.mul_div_cancel' hdvd).symm
    _ ≤ 2 ^ 12 * (a / 2 ^ 12) := Nat.mul_le_mul_left _ (Nat.div_le_div_right hsa)

/-! ## The replay fold of `restore_pages` -/

/-- Unfolding `addrs` over a cons. -/
theorem addrs_cons (r : page_t) (l : List page_t) :
    addrs (r :: l) = r.addr :: addrs l := rfl

/-- Unfolding `addrs` over an append. -/
theorem addrs_append (l1 l2 : List page_t) :
    addrs (l1 ++ l2) = addrs l1 ++ addrs l2 := by
  simp [addrs]

/-- Replaying a log whose records all hold original contents resets
exactly the recorded pages to their original contents and leaves every
other page alone. -/
theorem restore_fold_mem (M0 : Nat → Nat) (l : List page_t) :
    ∀ (m : Nat → Nat) (p : Nat), (∀ r ∈ l, r.data = M0 r.addr) →
      (l.foldl (fun m r => updf m r.addr r.data) m) p =
        if p ∈ addrs l then M0 p else m p := by
  induction l with
  | nil => intro m p _; simp [addrs]
  | cons r rest ih =>
    intro m p hl
    have hr : r.data = M0 r.addr := hl r (by simp)
    have hrest : ∀ x ∈ rest, x.data = M0 x.addr := fun x hx => hl x (by simp [hx])
    simp only [List.foldl_cons]
    rw [ih _ p hrest, addrs_cons]
    by_cases hp : p ∈ addrs rest
    · simp [hp]
    · by_cases hpr : p = r.addr
      · simp [hp, hpr, updf, hr]
      · simp [hp, hpr, updf]

/-- Replaying a log leaves unrecorded pages untouched. -/
theorem restore_fold_not_mem (l : List page_t) :
    ∀ (m : Nat → Nat) (p : Nat), p ∉ addrs l →
      (l.foldl (fun m r => updf m r.addr r.data) m) p = m p := by
  induction l with
  | nil => intro m p _; simp
  | cons r rest ih =>
    intro m p hp
    rw [addrs_cons, List.mem_cons] at hp
    push_neg at hp
    simp only [List.foldl_cons]
    rw [ih _ _ hp.2]
    simp [updf, hp.1]

/-- In a duplicate-free log, replay writes each record's saved data to its
address. -/
theorem restore_fold_rec (l : List page_t) :
    ∀ (m : Nat → Nat), (addrs l).Nodup → ∀ r ∈ l,
      (l.foldl (fun m r => updf m r.addr r.data) m) r.addr = r.data := by
  induction l with
  | nil => intro m _ r hr; cases hr
  | cons x rest ih =>
    intro m hnd r hr
    rw [addrs_cons, List.nodup_cons] at hnd
    rcases List.mem_cons.1 hr with hxr | hrest
    · subst hxr
      simp only [List.foldl_cons]
      rw [restore_fold_not_mem rest _ _ hnd.1]
      simp [updf]
    · simp only [List.foldl_cons]
      exact ih _ hnd.2 r hrest

/-! ## Preservation of the invariant -/

/-- One target write, with its fault handling, preserves the
mid-iteration invariant. -/
theorem goodMid_doWrite (wp0 : Nat → Bool) (M0 : Nat → Nat)
    (s : HarnessState) (a v : Nat) (hg : GoodMid wp0 M0 s) :
    GoodMid wp0 M0 (doWrite s a v) := by
  by_cases hwp : s.wp (page_align a) = true
  · have hm : wp0 (page_align a) = true := by
      cases h : wp0 (page_align a)
      · exact absurd hwp (by simp [hg.wpFalse _ h])
      · rfl
    have hnotin : page_align a ∉ addrs s.pages := (hg.wpIff _ hm).1 hwp
    have hmem : s.mem (page_align a) = M0 (page_align a) :=
      hg.memPristine _ hm hnotin
    rw [doWrite, if_pos hwp]
    constructor
    · intro q hq
      show updb s.wp (page_align a) false q = false
      by_cases hqp : q = page_align a
      · simp [updb, hqp]
      · simp [updb, hqp, hg.wpFalse q hq]
    · intro q hq
      show updb s.wp (page_align a) false q = true ↔
        q ∉ addrs (s.pages ++ [⟨page_align a, s.mem (page_align a)⟩])
      rw [addrs_append]
      by_cases hqp : q = page_align a
      · subst hqp
        simp [updb, addrs]
      · simp only [updb, if_neg hqp]
        rw [hg.wpIff q hq]
        simp [addrs, hqp]
    · intro q hq hqin
      show updf s.mem (page_align a) v q = M0 q
      rw [addrs_append] at hqin
      simp only [List.mem_append, not_or] at hqin
      have hqp : q ≠ page_align a := by
        intro h; exact hqin.2 (by simp [addrs, h])
      simp only [updf, if_neg hqp]
      exact hg.memPristine q hq hqin.1
    · intro r hr
      rcases List.mem_append.1 hr with h | h
      · exact hg.recOrig r h
      · simp only [List.mem_singleton] at h
        subst h
        exact ⟨hm, by simpa using hmem⟩
    · show (addrs (s.pages ++ [⟨page_align a, s.mem (page_align a)⟩])).Nodup
      rw [addrs_append]
      refine List.Nodup.append hg.nodupAddrs (by simp [addrs]) ?_
      intro x hx1 hx2
      simp only [addrs, List.map_cons, List.map_nil, List.mem_singleton] at hx2
      subst hx2
      exact hnotin hx1
  · rw [doWrite, if_neg hwp]
    constructor
    · intro q hq; exact hg.wpFalse q hq
    · intro q hq; exact hg.wpIff q hq
    · intro q hq hqin
      show updf s.mem (page_align a) v q = M0 q
      have hqp : q ≠ page_align a := by
        intro h; subst h
        exact hwp ((hg.wpIff _ hq).2 hqin)
      simp only [updf, if_neg hqp]
      exact hg.memPristine q hq hqin
    · exact hg.recOrig
    · exact hg.nodupAddrs

/-- A whole write pattern preserves the mid-iteration invariant. -/
theorem goodMid_runWrites (wp0 : Nat → Bool) (M0 : Nat → Nat)
    (ws : List (Nat × Nat)) :
    ∀ s : HarnessState, GoodMid wp0 M0 s → GoodMid wp0 M0 (runWrites s ws) := by
  induction ws with
  | nil => intro s hs; exact hs
  | cons w rest ih =>
    intro s hs
    exact ih _ (goodMid_doWrite _ _ _ _ _ hs)

/-- Restoring from any mid-iteration state re-establishes the boundary
invariant: every monitored page again holds its original content. -/
theorem good_restore (wp0 : Nat → Bool) (M0 : Nat → Nat)
    (s : HarnessState) (hg : GoodMid wp0 M0 s) :
    Good wp0 M0 (restore_pages s) := by
  have hl : ∀ r ∈ s.pages, r.data = M0 r.addr := fun r hr => (hg.recOrig r hr).2
  have hmem : ∀ p, (restore_pages s).mem p =
      if p ∈ addrs s.pages then M0 p else s.mem p :=
    fun p => restore_fold_mem M0 s.pages s.mem p hl
  constructor
  · constructor
    · exact hg.wpFalse
    · exact hg.wpIff
    · intro q hq hqin
      have hqin' : q ∉ addrs s.pages := hqin
      rw [hmem q, if_neg hqin']
      exact hg.memPristine q hq hqin'
    · exact hg.recOrig
    · exact hg.nodupAddrs
  · intro p hp
    rw [hmem p]
    by_cases hin : p ∈ addrs s.pages
    · simp [hin]
    · rw [if_neg hin]; exact hg.memPristine p hp hin

/-- One full iteration (invoke the target, then restore) preserves the
boundary invariant. -/
theorem good_iteration (wp0 : Nat → Bool) (M0 : Nat → Nat)
    (s : HarnessState) (ws : List (Nat × Nat)) (hg : Good wp0 M0 s) :
    Good wp0 M0 (iteration s ws) :=
  good_restore _ _ _ (goodMid_runWrites _ _ ws s hg.1)

/-- Any number of iterations preserves the boundary invariant. -/
theorem good_runIters (wp0 : Nat → Bool) (M0 : Nat → Nat)
    (wss : List (List (Nat × Nat))) :
    ∀ s, Good wp0 M0 s → Good wp0 M0 (runIters s wss) := by
  induction wss with
  | nil => intro s hs; exact hs
  | cons ws rest ih => intro s hs; exact ih _ (good_iteration _ _ _ _ hs)

/-- The boundary invariant holds in any initial state with an empty log
whose trap state agrees with the monitored set. -/
theorem good_empty (wp0 : Nat → Bool) (M0 : Nat → Nat) :
    Good wp0 M0 ⟨M0, wp0, []⟩ := by
  constructor
  · constructor
    · intro p hp; exact hp
    · intro p hp; simp [addrs, hp]
    · intro p _ _; rfl
    · intro r hr; exact absurd hr (List.not_mem_nil r)
    · simp [addrs]
  · intro p _; rfl

/-- The state after the monitor thread's registration pass satisfies the
boundary invariant. -/
theorem good_initState (maps : List procmaps_struct) (M0 : Nat → Nat) :
    Good (protInit maps) M0 (initState maps M0) :=
  good_empty (protInit maps) M0

/-! ## Facts about the run trace -/

/-- Any iteration's body occurs contiguously inside the concatenated
loop trace. -/
theorem flatMap_range_decomp (f : Nat → List RunEvent) :
    ∀ n i, i < n → ∃ pre post, (List.range n).flatMap f = pre ++ f i ++ post := by
  intro n
  induction n with
  | zero => intro i hi; exact absurd hi (Nat.not_lt_zero i)
  | succ m ih =>
    intro i hi
    rw [List.range_succ, List.flatMap_append]
    rcases Nat.lt_or_ge i m with h | h
    · rcases ih i h with ⟨pre, post, heq⟩
      exact ⟨pre, post ++ [m].flatMap f, by rw [heq]; simp⟩
    · have him : i = m := by omega
      subst him
      exact ⟨(List.range i).flatMap f, [], by simp⟩

/-- The loop body stores exactly one timing result per iteration. -/
theorem filter_storeTime_iterTrace (i : Nat) :
    (iterTrace i).filter isStoreTime = [.storeTime i] := rfl

/-- The concatenated loop trace stores exactly `n` timing results. -/
theorem filter_storeTime_flatMap (n : Nat) :
    (((List.range n).flatMap iterTrace).filter isStoreTime).length = n := by
  induction n with
  | zero => rfl
  | succ m ih =>
    rw [List.range_succ, List.flatMap_append, List.filter_append,
        List.length_append, ih]
    simp [filter_storeTime_iterTrace]

/-- A whole run stores exactly `n` timing results. -/
theorem runTrace_filter_storeTime (n : Nat) :
    ((runTrace n).filter isStoreTime).length = n := by
  rw [runTrace, List.filter_append, List.filter_append, List.length_append,
      List.length_append, filter_storeTime_flatMap]
  simp [isStoreTime]

/-- `run` never performs a deregistration step, for any iteration
count. -/
theorem deregisterEv_not_mem_runTrace (n : Nat) :
    RunEvent.uffd_deregisterEv ∉ runTrace n := by
  intro h
  rw [runTrace] at h
  rcases List.mem_append.1 h with h1 | h1
  · rcases List.mem_append.1 h1 with h2 | h2
    · simp at h2
    · rcases List.mem_flatMap.1 h2 with ⟨i, _, h3⟩
      simp [iterTrace] at h3
  · simp at h1

/-- A failing `UFFDIO_UNREGISTER` ioctl makes `uffd_deregister` return
`1`. -/
theorem uffd_deregister_fail : ∀ oks : List Bool, false ∈ oks →
    uffd_deregister oks = 1 := by
  intro oks
  induction oks with
  | nil => intro h; cases h
  | cons ok rest ih =>
    intro hfail
    cases ok
    · simp [uffd_deregister]
    · have h : false ∈ rest := by simpa using hfail
      simp [uffd_deregister, ih h]

/-! ## The claims -/

/-- C1 (confirmed): for every monitored region `R` and every write
pattern the target performs, as long as the dirty-page log stays within
its fixed capacity of `0x1000` records, the content of every page of `R`
after iteration `i`'s restore step equals its content immediately before
iteration `i`'s target invocation — for every one of the iterations, not
only the first.  (In the code the log is cumulative across iterations,
so staying within capacity is the condition that the log never exceeds
`0x1000` records over the run; this implies every single iteration stayed
within capacity.)  The byte content of `R` is the content of its pages,
here compared at the page containing each byte address `a` of `R`;
regions enumerated from `/proc/self/maps` are page-aligned and their
addresses fit in 64 bits, which enters as the two alignment
hypotheses. -/
theorem iteration_restores_monitored_content
    (maps : List procmaps_struct) (M0 : Nat → Nat)
    (wss : List (List (Nat × Nat)))
    (halign : ∀ m ∈ maps, m.addr_start % PAGE_SIZE = 0)
    (hfit : ∀ m ∈ maps, m.addr_end ≤ 2 ^ 64)
    (hcap : (runIters (initState maps M0) wss).pages.length ≤ 0x1000)
    (i : Nat) (hi : i < wss.length)
    (R : procmaps_struct) (hR : R ∈ maps)
    (a : Nat) (ha1 : R.addr_start ≤ a) (ha2 : a < R.addr_end) :
    (runIters (initState maps M0) (wss.take (i + 1))).mem (page_align a) =
      (runIters (initState maps M0) (wss.take i)).mem (page_align a) := by
  have ha64 : a < 2 ^ 64 := lt_of_lt_of_le ha2 (hfit R hR)
  have hlo : R.addr_start ≤ page_align a :=
    le_page_align _ _ (halign R hR) ha1 ha64
  have hhi : page_align a < R.addr_end :=
    lt_of_le_of_lt (page_align_le a ha64) ha2
  have hprot : protInit maps (page_align a) = true := by
    simp only [protInit, List.any_eq_true]
    exact ⟨R, hR, by simp [hlo, hhi]⟩
  have h1 := (good_runIters (protInit maps) M0 (wss.take (i + 1)) _
    (good_initState maps M0)).2 _ hprot
  have h2 := (good_runIters (protInit maps) M0 (wss.take i) _
    (good_initState maps M0)).2 _ hprot
  rw [h1, h2]

/-- Witness for C1: one monitored one-page region at `0x1000`, one
iteration writing that page; after the iteration's restore the page holds
its pre-invocation content. -/
theorem iteration_restores_monitored_content_w :
    (runIters (initState [mapEx] memZero) ([[(4096, 7)]].take 1)).mem (page_align 4096) =
      (runIters (initState [mapEx] memZero) ([[(4096, 7)]].take 0)).mem (page_align 4096) :=
  iteration_restores_monitored_content [mapEx] memZero [[(4096, 7)]]
    (by decide) (by decide) (by decide) 0 (by decide) mapEx (by decide)
    4096 (by decide) (by decide)

/-- C2 counterexample: after a full iteration (invoke target, then
restore) in which the target wrote one monitored page, the dirty-page
log still holds that iteration's record (`n_pages = 1`, not `0`) and the
written page's write-protect trap is still released (`false`), refuting
the claim that `restore_pages` clears the log and re-registers
write-protect for the released pages before the next invocation. -/
theorem restore_keeps_log_and_trap_cex :
    (iteration ⟨memZero, wpAll, []⟩ [(4096, 7)]).pages.length = 1 ∧
      (iteration ⟨memZero, wpAll, []⟩ [(4096, 7)]).wp 4096 = false := by
  decide

/-- C2 (amended, proved): after a target invocation completes,
`restore_pages` copies every dirty-page record's saved content back to
its recorded address (and touches no other page), but it neither clears
the dirty-page log (the records persist unchanged) nor re-registers
write-protect for the pages that were released (the trap state is
returned exactly as it was). -/
theorem restore_pages_replays_without_rearm (s : HarnessState)
    (hnd : (addrs s.pages).Nodup) :
    (restore_pages s).pages = s.pages ∧
    (restore_pages s).wp = s.wp ∧
    (∀ r ∈ s.pages, (restore_pages s).mem r.addr = r.data) ∧
    (∀ p, p ∉ addrs s.pages → (restore_pages s).mem p = s.mem p) := by
  refine ⟨rfl, rfl, ?_, ?_⟩
  · intro r hr
    exact restore_fold_rec s.pages s.mem hnd r hr
  · intro p hp
    exact restore_fold_not_mem s.pages s.mem p hp

/-- Witness for the amended C2, on a one-record log. -/
theorem restore_pages_replays_without_rearm_w :
    (addrs (HarnessState.mk memZero wpAll [⟨0, 3⟩]).pages).Nodup ∧
      ((restore_pages ⟨memZero, wpAll, [⟨0, 3⟩]⟩).pages = [⟨0, 3⟩] ∧
       (restore_pages ⟨memZero, wpAll, [⟨0, 3⟩]⟩).wp = wpAll ∧
       (∀ r ∈ [(⟨0, 3⟩ : page_t)],
         (restore_pages ⟨memZero, wpAll, [⟨0, 3⟩]⟩).mem r.addr = r.data) ∧
       (∀ p, p ∉ addrs [(⟨0, 3⟩ : page_t)] →
         (restore_pages ⟨memZero, wpAll, [⟨0, 3⟩]⟩).mem p = memZero p)) :=
  ⟨by decide, restore_pages_replays_without_rearm ⟨memZero, wpAll, [⟨0, 3⟩]⟩ (by decide)⟩

/-- C3 (code bug, evaluated at a concrete region): `remap`'s two "unmap"
steps — of the original mapping (trace position 2) and of the scratch
mapping (trace position 5) — issue the change-protection syscall number
`__NR_mprotect` with only two arguments, because `remap_munmap`'s body is
`my_syscall2(__NR_mprotect, addr, length)`; no event of the whole remap
trace carries the destroy-mapping syscall `__NR_munmap`, although the
function's name and comments ("unmap original", "clean up tmp") and the
spec's ordering requirement call for the destroy-mapping primitive
there. -/
theorem remap_unmap_issues_mprotect :
    (remap [mapEx])[2]? = some (.sys NR_mprotect [4096, 4096]) ∧
    (remap [mapEx])[5]? = some (.sys NR_mprotect [0xdead0000, 4096]) ∧
    (remap [mapEx]).all (fun e => !(sysNr e == some NR_munmap)) = true ∧
    NR_mprotect ≠ NR_munmap := by
  decide

/-- C4 counterexample: in the trace of a one-iteration run, the event
directly after the pivot back out of the target (position 10) is the
restore step (position 11), and the end-of-iteration clock read comes
only after it (position 12) — so the end timestamp is not captured
immediately after the stack is pivoted back, and the restore step lies
inside the measured interval, refuting the claim. -/
theorem clock_end_after_restore_cex :
    (runTrace 1)[10]? = some (.stackSwap 0 true) ∧
    (runTrace 1)[11]? = some (.restoreEv 0) ∧
    (runTrace 1)[12]? = some (.clockEnd 0) ∧
    RunEvent.restoreEv 0 ≠ RunEvent.clockEnd 0 := by
  decide

/-- C4 (amended, proved): each iteration's duration is measured from a
monotonic timestamp captured at the top of the loop body, before the
pivot into the target, to a timestamp captured after the restore step —
so the restore step is part of the measured interval — and exactly one
duration is stored per iteration: a run of `n` iterations performs `n`
timing stores. -/
theorem iteration_timing_includes_restore (n i : Nat) (hi : i < n) :
    (∃ pre post, runTrace n = pre ++ iterTrace i ++ post) ∧
    (iterTrace i)[0]? = some (.clockStart i) ∧
    (iterTrace i)[4]? = some (.restoreEv i) ∧
    (iterTrace i)[5]? = some (.clockEnd i) ∧
    (iterTrace i)[6]? = some (.storeTime i) ∧
    ((runTrace n).filter isStoreTime).length = n := by
  refine ⟨?_, rfl, rfl, rfl, rfl, runTrace_filter_storeTime n⟩
  rcases flatMap_range_decomp iterTrace n i hi with ⟨pre, post, heq⟩
  refine ⟨[.load_mapsEv, .remapEv, .uffd_setupEv, .spawnMonitorEv, .waitReadyEv,
    .redirect_stdoutEv, .setaffinityEv 3] ++ pre,
    post ++ [.dup2Ev, .report_timesEv], ?_⟩
  rw [runTrace, heq]
  simp

/-- Witness for the amended C4 at `n = 2`, `i = 0`. -/
theorem iteration_timing_includes_restore_w :
    0 < 2 ∧
      ((∃ pre post, runTrace 2 = pre ++ iterTrace 0 ++ post) ∧
       (iterTrace 0)[0]? = some (.clockStart 0) ∧
       (iterTrace 0)[4]? = some (.restoreEv 0) ∧
       (iterTrace 0)[5]? = some (.clockEnd 0) ∧
       (iterTrace 0)[6]? = some (.storeTime 0) ∧
       ((runTrace 2).filter isStoreTime).length = 2) :=
  ⟨by decide, iteration_timing_includes_restore 2 0 (by decide)⟩

/-- C5 (confirmed): on a write-protect fault event, the monitor computes
the containing page address by masking the fault address down to a page
boundary (`page_align`, the mask `& ~(PAGE_SIZE - 1)`), appends to the
log a new record holding that full page's current contents, and releases
the write-protect trap for a range of exactly one page starting at the
computed page address. -/
theorem wp_fault_captures_and_releases (mem : Nat → Nat) (pages : List page_t)
    (flags address : Nat) (hwp : flags &&& UFFD_PAGEFAULT_FLAG_WP ≠ 0) :
    uffd_monitor_step mem pages (.message flags address true) =
      (pages ++ [⟨page_align address, mem (page_align address)⟩],
        .capture (page_align address) PAGE_SIZE) := by
  simp [uffd_monitor_step, hwp]

/-- Witness for C5 at a fault on address `12345` with the write-protect
flag set. -/
theorem wp_fault_captures_and_releases_w :
    (2 : Nat) &&& UFFD_PAGEFAULT_FLAG_WP ≠ 0 ∧
      uffd_monitor_step memZero [] (.message 2 12345 true) =
        ([⟨page_align 12345, memZero (page_align 12345)⟩],
          .capture (page_align 12345) PAGE_SIZE) :=
  ⟨by decide, wp_fault_captures_and_releases memZero [] 2 12345 (by decide)⟩

/-- C6 (confirmed): starting from an empty dirty-page log, after any run
(any number of iterations, any write patterns) the log never holds two
records for the same page — once a page's first write fault is captured
and its trap released, later writes to it append nothing — and every
record stores the page's pre-first-write content (its content in the
initial state `M0`, which is also its content at the start of the
iteration that captured it, since restore puts monitored pages back to
`M0`). -/
theorem dirty_log_unique_and_prewrite (wp0 : Nat → Bool) (M0 : Nat → Nat)
    (wss : List (List (Nat × Nat))) :
    (addrs (runIters ⟨M0, wp0, []⟩ wss).pages).Nodup ∧
      ∀ r ∈ (runIters ⟨M0, wp0, []⟩ wss).pages, r.data = M0 r.addr := by
  have hg := good_runIters wp0 M0 wss _ (good_empty wp0 M0)
  exact ⟨hg.1.nodupAddrs, fun r hr => (hg.1.recOrig r hr).2⟩

/-- C7 (confirmed): an enumerated region enters the monitored set iff it
is not one of the harness's reserved segments (start address equal to the
`.remap` or `.writeignored` section address), has at least one of
read/write/execute, is none of `[vsyscall]`, `[vvar]`, `[vdso]`, and is
not the `.got.plt` region; every other enumerated region is included.
The hypothesis keeps the enumeration within the fixed capacity of the C
`maps[0x100]` array. -/
theorem load_maps_filter_iff (R W G : Nat) (input : List procmaps_struct)
    (hcap : input.length ≤ 0x100) (m : procmaps_struct) :
    m ∈ load_maps R W G input ↔
      (m ∈ input ∧ m.addr_start ≠ R ∧ m.addr_start ≠ W ∧
       (m.is_r = true ∨ m.is_w = true ∨ m.is_x = true) ∧
       m.pathname ≠ "[vsyscall]" ∧ m.pathname ≠ "[vvar]" ∧
       m.pathname ≠ "[vdso]" ∧ m.addr_start ≠ G) := by
  rw [load_maps, List.mem_filter]
  simp only [keep_map, Bool.and_eq_true, Bool.not_eq_true', Bool.or_eq_false_iff,
    beq_eq_false_iff_ne, ne_eq, Bool.or_eq_true]
  tauto

/-- Witness for C7: a readable-writable region passes the filter, next to
a permissionless region. -/
theorem load_maps_filter_iff_w :
    ([mapEx, mapExNone].length ≤ 0x100) ∧
      (mapEx ∈ load_maps 1 2 3 [mapEx, mapExNone] ↔
        (mapEx ∈ [mapEx, mapExNone] ∧ mapEx.addr_start ≠ 1 ∧
         mapEx.addr_start ≠ 2 ∧
         (mapEx.is_r = true ∨ mapEx.is_w = true ∨ mapEx.is_x = true) ∧
         mapEx.pathname ≠ "[vsyscall]" ∧ mapEx.pathname ≠ "[vvar]" ∧
         mapEx.pathname ≠ "[vdso]" ∧ mapEx.addr_start ≠ 3)) :=
  ⟨by decide, load_maps_filter_iff 1 2 3 [mapEx, mapExNone] (by decide) mapEx⟩

/-- C8 (confirmed): in the watcher loop, a failed poll (`poll` returning
`-1`), an empty poll (`poll` returning `0`), and a read reporting no data
(`read` failing with `EAGAIN`) just loop back to the wait, leaving the
log untouched; a short read of the notification record exits the process
with status `4`, and a failed release-of-trap ioctl exits with status
`5` — both non-zero. -/
theorem monitor_retryable_vs_fatal (mem : Nat → Nat) (pages : List page_t) :
    uffd_monitor_step mem pages .pollFail = (pages, .retry) ∧
    uffd_monitor_step mem pages .pollTimeout = (pages, .retry) ∧
    uffd_monitor_step mem pages .readAgain = (pages, .retry) ∧
    (∀ n, uffd_monitor_step mem pages (.readShort n) = (pages, .fatal 4)) ∧
    (∀ flags address, flags &&& UFFD_PAGEFAULT_FLAG_WP ≠ 0 →
      (uffd_monitor_step mem pages (.message flags address false)).2 = .fatal 5) ∧
    (4 : Nat) ≠ 0 ∧ (5 : Nat) ≠ 0 := by
  refine ⟨rfl, rfl, rfl, fun n => rfl, ?_, by decide, by decide⟩
  intro flags address h
  simp [uffd_monitor_step, h]

/-- Witness for C8: a retryable case and a fatal failed-release case. -/
theorem monitor_retryable_vs_fatal_w :
    uffd_monitor_step memZero [] .pollFail = ([], .retry) ∧
      (uffd_monitor_step memZero [] (.message 2 0 false)).2 = .fatal 5 :=
  ⟨(monitor_retryable_vs_fatal memZero []).1,
   (monitor_retryable_vs_fatal memZero []).2.2.2.2.1 2 0 (by decide)⟩

/-- C9 counterexample: the full trace of a three-iteration run contains
no deregistration step at all — `run` returns after `dup2` and
`report_times` without ever calling `uffd_deregister` — refuting the
claim that the harness deregisters the monitored regions at teardown. -/
theorem run_never_deregisters_cex :
    RunEvent.uffd_deregisterEv ∉ runTrace 3 := by
  decide

/-- C9 (amended, proved): the harness defines a deregistration routine,
`uffd_deregister`, which walks the monitored regions and reports a
failing `UFFDIO_UNREGISTER` with the non-zero result `1` — but `run`
never invokes it: no run trace, for any iteration count, contains a
deregistration step, so no deregistration happens at teardown. -/
theorem deregister_defined_but_never_called (n : Nat) (oks : List Bool)
    (hfail : false ∈ oks) :
    RunEvent.uffd_deregisterEv ∉ runTrace n ∧
      uffd_deregister oks = 1 ∧ (1 : Nat) ≠ 0 :=
  ⟨deregisterEv_not_mem_runTrace n, uffd_deregister_fail oks hfail, by decide⟩

/-- Witness for the amended C9 with one failing unregister. -/
theorem deregister_defined_but_never_called_w :
    false ∈ [false] ∧
      (RunEvent.uffd_deregisterEv ∉ runTrace 1 ∧
        uffd_deregister [false] = 1 ∧ (1 : Nat) ≠ 0) :=
  ⟨by decide, deregister_defined_but_never_called 1 [false] (by decide)⟩

/-- C10 (confirmed): a fault notification whose pagefault flags lack the
write-protect bit triggers no action at all: the dirty-page log is
returned unchanged (so its length is unchanged), no write-protect release
is issued, and the watcher just falls through to wait for the next
event. -/
theorem non_wp_fault_ignored (mem : Nat → Nat) (pages : List page_t)
    (flags address : Nat) (wpOk : Bool)
    (h : flags &&& UFFD_PAGEFAULT_FLAG_WP = 0) :
    uffd_monitor_step mem pages (.message flags address wpOk) =
      (pages, .ignore) := by
  simp [uffd_monitor_step, h]

/-- Witness for C10: a plain write fault (`UFFD_PAGEFAULT_FLAG_WRITE`,
flag value `1`) without the write-protect bit. -/
theorem non_wp_fault_ignored_w :
    (1 : Nat) &&& UFFD_PAGEFAULT_FLAG_WP = 0 ∧
      uffd_monitor_step memZero [] (.message 1 4096 true) = ([], .ignore) :=
  ⟨by decide, non_wp_fault_ignored memZero [] 1 4096 true (by decide)⟩
